import Mathlib

/-!
Shallow embedding of the "SusButton" design-system playground: the top-level
state orchestrator (property snapshot, undo/redo history, event log, floating
windows, overlay flags, code-panel text buffer) and the theme token resolver.
Each definition is translated from the corresponding source function; state
updates of the UI framework are modelled as explicit state passing on an
`AppState` record, and one browser event handler is one Lean function from
state to state.
-/

/-- The button property snapshot (`MetaButtonProps` in the source).  The enum-like
fields (`type`, `size`, `radius`, `iconPlacement`) are carried as strings, as in
the source where they are string unions. -/
structure MetaButtonProps where
  label : String
  type : String
  size : String
  radius : String
  iconPlacement : String
  icon : String
  disabled : Bool
  forcedHover : Bool
  forcedFocus : Bool
  forcedActive : Bool
deriving DecidableEq, Repr

/-- The default snapshot installed by the orchestrator at startup. -/
def defaultBtnProps : MetaButtonProps :=
  { label := "SusButton"
    type := "primary"
    size := "m"
    radius := "8px"
    iconPlacement := "left"
    icon := "ph-check"
    disabled := false
    forcedHover := false
    forcedFocus := false
    forcedActive := false }

/-- Identifiers of the three floating windows (`WindowId` in the source). -/
inductive WindowId where
  | control
  | code
  | console
deriving DecidableEq, Repr

/-- Per-window record (`WindowState` in the source). -/
structure WindowState where
  id : WindowId
  title : String
  isOpen : Bool
  zIndex : Nat
  x : Int
  y : Int
deriving DecidableEq, Repr

/-- The `Record<WindowId, WindowState>` map of the source, with its fixed key set. -/
structure Windows where
  control : WindowState
  code : WindowState
  console : WindowState
deriving DecidableEq, Repr

/-- Read one entry of the window map (`prev[id]`). -/
def getWin (w : Windows) : WindowId → WindowState
  | .control => w.control
  | .code => w.code
  | .console => w.console

/-- Replace one entry of the window map (`{ ...prev, [id]: v }`). -/
def setWin (w : Windows) : WindowId → WindowState → Windows
  | .control, v => { w with control := v }
  | .code, v => { w with code := v }
  | .console, v => { w with console := v }

/-- `Math.max(...Object.values(prev).map(w => w.zIndex))` over the three windows. -/
def maxZ (w : Windows) : Nat :=
  max (max w.control.zIndex w.code.zIndex) w.console.zIndex

/-- Initial window map (source lines 74-78): control open at z 1, code closed at
z 2, console closed at z 3, with the hand-chosen positions. -/
def initWindows : Windows :=
  { control := { id := .control, title := "Control", isOpen := true, zIndex := 1, x := -420, y := -340 }
    code := { id := .code, title := "Code I/O", isOpen := false, zIndex := 2, x := 20, y := -210 }
    console := { id := .console, title := "Console", isOpen := false, zIndex := 3, x := -200, y := 150 } }

/-- `bringToFront(id)`: no-op when `id` already holds the maximum z-index,
otherwise assign it `maxZ + 1`. -/
def bringToFront (id : WindowId) (w : Windows) : Windows :=
  if (getWin w id).zIndex = maxZ w then w
  else setWin w id { getWin w id with zIndex := maxZ w + 1 }

/-- `toggleWindow(id)`: flip the open flag; when the window becomes open it also
receives z-index `maxZ + 1` (computed over the pre-toggle map, whose z-indices
the flip does not change). -/
def toggleWindow (id : WindowId) (w : Windows) : Windows :=
  let isOpen := !(getWin w id).isOpen
  let next := setWin w id { getWin w id with isOpen := isOpen }
  if isOpen then setWin next id { getWin next id with isOpen := isOpen, zIndex := maxZ w + 1 }
  else next

/-- Log truncation `arr.slice(-50)`: keep the most recent 50 entries.  On a list
of length at most 50 the (truncated) subtraction is 0 and the list is kept whole. -/
def lastFifty (l : List String) : List String :=
  l.drop (l.length - 50)

/-- `logEvent(msg)` acting on the log list: append one entry, then truncate to the
most recent 50.  A `LogEntry` is modelled by its message; the random id and the
wall-clock timestamp are environment services the source merely invokes. -/
def logEvent (msg : String) (logs : List String) : List String :=
  lastFifty (logs ++ [msg])

/-- Keys of `MetaButtonProps`, used for the single-key form of `handlePropChange`. -/
inductive PropKey where
  | label
  | type
  | size
  | radius
  | iconPlacement
  | icon
  | disabled
  | forcedHover
  | forcedFocus
  | forcedActive
deriving DecidableEq, Repr

/-- The source key string of a `PropKey`. -/
def keyName : PropKey → String
  | .label => "label"
  | .type => "type"
  | .size => "size"
  | .radius => "radius"
  | .iconPlacement => "iconPlacement"
  | .icon => "icon"
  | .disabled => "disabled"
  | .forcedHover => "forcedHover"
  | .forcedFocus => "forcedFocus"
  | .forcedActive => "forcedActive"

/-- A value assigned to a snapshot field: the string fields take strings, the four
flags take booleans (the TypeScript call sites only ever pass matching types). -/
inductive PropValue where
  | str (s : String)
  | bool (b : Bool)
deriving DecidableEq, Repr

/-- Template-literal rendering of a `PropValue` (for the log message). -/
def showValue : PropValue → String
  | .str s => s
  | .bool b => if b then "true" else "false"

/-- `{ ...btnProps, [key]: value }`.  A type-mismatched assignment cannot occur at
the typed call sites; the model leaves the snapshot unchanged in that case. -/
def setField (p : MetaButtonProps) (k : PropKey) (v : PropValue) : MetaButtonProps :=
  match k, v with
  | .label, .str s => { p with label := s }
  | .type, .str s => { p with type := s }
  | .size, .str s => { p with size := s }
  | .radius, .str s => { p with radius := s }
  | .iconPlacement, .str s => { p with iconPlacement := s }
  | .icon, .str s => { p with icon := s }
  | .disabled, .bool b => { p with disabled := b }
  | .forcedHover, .bool b => { p with forcedHover := b }
  | .forcedFocus, .bool b => { p with forcedFocus := b }
  | .forcedActive, .bool b => { p with forcedActive := b }
  | _, _ => p

/-- The `keyOrObj` union argument of `handlePropChange`: a single key/value pair
or a partial snapshot (an ordered list of key/value pairs). -/
inductive PropChangeArg where
  | key (k : PropKey) (v : PropValue)
  | obj (updates : List (PropKey × PropValue))
deriving DecidableEq, Repr

/-- The orchestrator's state bundle: every `useState` cell of the source that the
core logic reads or writes.  View-only numbers (3D angles, layer spacing,
confetti counter) feed no claim and are omitted. -/
structure AppState where
  btnProps : MetaButtonProps
  showMeasurements : Bool
  showTokens : Bool
  logs : List String
  history : List MetaButtonProps
  future : List MetaButtonProps
  windows : Windows
  codeText : String
deriving DecidableEq, Repr

/-- The orchestrator's initial state.  The log holds the single entry emitted by
the mount effect. -/
def initState : AppState :=
  { btnProps := defaultBtnProps
    showMeasurements := false
    showTokens := false
    logs := logEvent "System Ready. SUS Design System initialized." []
    history := []
    future := []
    windows := initWindows
    codeText := "" }

/-- `updateBtnProps(newProps, saveHistory = true)`: replace the current snapshot;
when recording, push the previous snapshot onto `history` and clear `future`. -/
def updateBtnProps (newProps : MetaButtonProps) (saveHistory : Bool) (s : AppState) : AppState :=
  if saveHistory then
    { s with history := s.history ++ [s.btnProps], future := [], btnProps := newProps }
  else
    { s with btnProps := newProps }

/-- `handleUndo()`: no-op on empty history (`history.length === 0`); otherwise pop
the last history entry into the current slot, push the current snapshot onto the
front of `future`, and log. -/
def handleUndo (s : AppState) : AppState :=
  match s.history.getLast? with
  | none => s
  | some previous =>
      { s with
        history := s.history.dropLast
        future := s.btnProps :: s.future
        btnProps := previous
        logs := logEvent "Undo performed" s.logs }

/-- `handleRedo()`: no-op on empty future; otherwise shift the first future entry
into the current slot, append the current snapshot to `history`, and log. -/
def handleRedo (s : AppState) : AppState :=
  match s.future with
  | [] => s
  | next :: rest =>
      { s with
        history := s.history ++ [s.btnProps]
        btnProps := next
        future := rest
        logs := logEvent "Redo performed" s.logs }

/-- `handleCopyCode()`: clipboard write is an environment service; the core effect
is the log entry. -/
def handleCopyCode (s : AppState) : AppState :=
  { s with logs := logEvent "JSON copied to clipboard" s.logs }

/-- `handlePropChange(keyOrObj, value?)`: merge the change into the snapshot via a
history-recorded apply, then log a description of the change. -/
def handlePropChange (arg : PropChangeArg) (s : AppState) : AppState :=
  match arg with
  | .key k v =>
      let s1 := updateBtnProps (setField s.btnProps k v) true s
      { s1 with logs := logEvent ("Prop updated: " ++ keyName k ++ " = " ++ showValue v) s1.logs }
  | .obj updates =>
      let s1 := updateBtnProps (updates.foldl (fun p kv => setField p kv.1 kv.2) s.btnProps) true s
      { s1 with logs := logEvent ("State updated: " ++ String.intercalate ", " (updates.map fun kv => keyName kv.1)) s1.logs }

/-- `handleCodeChange(e)`: always store the new text in the code buffer; then try
to parse it.  `JSON.parse` is a platform builtin, so the parse outcome is passed
in as `parsed` (`some p` for a successful parse producing snapshot `p`, `none`
for a thrown syntax error).  On success the parsed snapshot is applied with
history recording; on failure nothing else happens.  No log entry is written on
either path. -/
def handleCodeChange (text : String) (parsed : Option MetaButtonProps) (s : AppState) : AppState :=
  let s1 := { s with codeText := text }
  match parsed with
  | some p => updateBtnProps p true s1
  | none => s1

/-- `handleToggleMeasurements()`: flip the measurement flag, force the token flag
off if it was on, and log using the pre-toggle flag value. -/
def handleToggleMeasurements (s : AppState) : AppState :=
  let s1 := { s with showMeasurements := !s.showMeasurements }
  let s2 := if s.showTokens then { s1 with showTokens := false } else s1
  { s2 with logs := logEvent ("Measurements toggled: " ++ (if !s.showMeasurements then "On" else "Off")) s2.logs }

/-- `handleToggleTokens()`: flip the token flag, force the measurement flag off if
it was on, and log using the pre-toggle flag value. -/
def handleToggleTokens (s : AppState) : AppState :=
  let s1 := { s with showTokens := !s.showTokens }
  let s2 := if s.showMeasurements then { s1 with showMeasurements := false } else s1
  { s2 with logs := logEvent ("Tokens toggled: " ++ (if !s.showTokens then "On" else "Off")) s2.logs }

/-- `handleStageButtonClick()`: the confetti counter feeds no claim; the core
effect is the log entry. -/
def handleStageButtonClick (s : AppState) : AppState :=
  { s with logs := logEvent "Button Clicked!" s.logs }

/-- One user-initiated event dispatched to the orchestrator. -/
inductive Event where
  | propChange (arg : PropChangeArg)
  | codeChange (text : String) (parsed : Option MetaButtonProps)
  | undo
  | redo
  | copyCode
  | toggleMeasurements
  | toggleTokens
  | stageClick
  | winToggle (id : WindowId)
  | winFront (id : WindowId)
deriving DecidableEq, Repr

/-- Dispatch one event to its handler. -/
def step : Event → AppState → AppState
  | .propChange arg, s => handlePropChange arg s
  | .codeChange text parsed, s => handleCodeChange text parsed s
  | .undo, s => handleUndo s
  | .redo, s => handleRedo s
  | .copyCode, s => handleCopyCode s
  | .toggleMeasurements, s => handleToggleMeasurements s
  | .toggleTokens, s => handleToggleTokens s
  | .stageClick, s => handleStageButtonClick s
  | .winToggle id, s => { s with windows := toggleWindow id s.windows }
  | .winFront id, s => { s with windows := bringToFront id s.windows }

/-- Run a sequence of events from a state. -/
def runEvents (es : List Event) (s : AppState) : AppState :=
  es.foldl (fun s e => step e s) s

/-- One window-manager call (the two operations named by the claims). -/
inductive WinOp where
  | toggle (id : WindowId)
  | front (id : WindowId)
deriving DecidableEq, Repr

/-- Dispatch one window-manager call. -/
def winStep : WinOp → Windows → Windows
  | .toggle id, w => toggleWindow id w
  | .front id, w => bringToFront id w

/-- Run a sequence of window-manager calls. -/
def runWinOps (ops : List WinOp) (w : Windows) : Windows :=
  ops.foldl (fun w op => winStep op w) w

/-- A sequence of history-recorded applies (`updateBtnProps(p, true)` for each
snapshot in order). -/
def runApplies (snaps : List MetaButtonProps) (s : AppState) : AppState :=
  snaps.foldl (fun s p => updateBtnProps p true s) s

/-- A sequence of `record(message)` calls on the log sink, starting from the empty
log. -/
def recordAll (msgs : List String) : List String :=
  msgs.foldl (fun l m => logEvent m l) []

/-- The viewport breakpoint (`Breakpoint` in the source). -/
inductive Breakpoint where
  | mobile
  | tablet
  | desktop
deriving DecidableEq, Repr

/-- The source key string of a breakpoint (the index used in `value[breakpoint]`). -/
def Breakpoint.key : Breakpoint → String
  | .mobile => "mobile"
  | .tablet => "tablet"
  | .desktop => "desktop"

/-- A token-tree node: a non-object value (opaque leaf) or a JS object (an ordered
string-keyed mapping). -/
inductive Tok where
  | leaf (s : String)
  | obj (kvs : List (String × Tok))
deriving Repr

/-- JS property access `value[key]` on a (unique-keyed) object literal, `none` for
an absent key. -/
def lookupKey : List (String × Tok) → String → Option Tok
  | [], _ => none
  | (k, v) :: rest, key => if k = key then some v else lookupKey rest key

/-- `isResponsiveObject(value)`: a non-null object with a `mobile`, `tablet` or
`desktop` key. -/
def isResponsiveObject : Tok → Bool
  | .leaf _ => false
  | .obj kvs =>
      (lookupKey kvs "mobile").isSome || (lookupKey kvs "tablet").isSome
        || (lookupKey kvs "desktop").isSome

/-- The nullish-coalescing chain
`value[breakpoint] ?? value.desktop ?? value.tablet ?? value.mobile`.  The guard
`isResponsiveObject` guarantees one of the four lookups succeeds, so the
`getD` default is never reached on the call path. -/
def pickResponsive (v : Tok) (bp : Breakpoint) : Tok :=
  match v with
  | .leaf _ => v
  | .obj kvs =>
      ((lookupKey kvs bp.key).or ((lookupKey kvs "desktop").or
        ((lookupKey kvs "tablet").or (lookupKey kvs "mobile")))).getD v

mutual

/-- `resolveTokens(obj, breakpoint)` applied to one node: a responsive object
resolves through the coalescing chain, any other object is walked recursively,
and a non-object value passes through unchanged. -/
def resolveTokens (t : Tok) (bp : Breakpoint) : Tok :=
  match t with
  | .leaf s => .leaf s
  | .obj kvs => .obj (resolveEntries kvs bp)

/-- The `for (const key in obj)` loop body of `resolveTokens`. -/
def resolveEntries (kvs : List (String × Tok)) (bp : Breakpoint) : List (String × Tok) :=
  match kvs with
  | [] => []
  | (k, v) :: rest =>
      (k,
        if isResponsiveObject v then pickResponsive v bp
        else
          match v with
          | .obj kvs2 => .obj (resolveEntries kvs2 bp)
          | .leaf s => .leaf s) :: resolveEntries rest bp

end

/-! ### History verification helpers -/

/-- The undo/redo-relevant projection of the state: (history, current, future). -/
def histOf (s : AppState) : List MetaButtonProps × MetaButtonProps × List MetaButtonProps :=
  (s.history, s.btnProps, s.future)

/-- The action of `handleUndo` on the projected triple. -/
def undoH (t : List MetaButtonProps × MetaButtonProps × List MetaButtonProps) :
    List MetaButtonProps × MetaButtonProps × List MetaButtonProps :=
  match t.1.getLast? with
  | none => t
  | some prev => (t.1.dropLast, prev, t.2.1 :: t.2.2)

/-- The action of `handleRedo` on the projected triple. -/
def redoH (t : List MetaButtonProps × MetaButtonProps × List MetaButtonProps) :
    List MetaButtonProps × MetaButtonProps × List MetaButtonProps :=
  match t.2.2 with
  | [] => t
  | next :: rest => (t.1 ++ [t.2.1], next, rest)

lemma histOf_handleUndo (s : AppState) : histOf (handleUndo s) = undoH (histOf s) := by
  cases h : s.history.getLast? <;> simp [handleUndo, undoH, histOf, h]

lemma histOf_handleRedo (s : AppState) : histOf (handleRedo s) = redoH (histOf s) := by
  cases h : s.future <;> simp [handleRedo, redoH, histOf, h]

lemma redoH_undoH (t : List MetaButtonProps × MetaButtonProps × List MetaButtonProps)
    (h : t.1 ≠ []) : redoH (undoH t) = t := by
  obtain ⟨p, c, f⟩ := t
  rcases List.eq_nil_or_concat p with rfl | ⟨q, b, rfl⟩
  · exact absurd rfl h
  · simp [undoH, redoH, List.concat_eq_append]

lemma undoH_fst (t : List MetaButtonProps × MetaButtonProps × List MetaButtonProps)
    (h : t.1 ≠ []) : (undoH t).1 = t.1.dropLast := by
  obtain ⟨p, c, f⟩ := t
  rcases List.eq_nil_or_concat p with rfl | ⟨q, b, rfl⟩
  · exact absurd rfl h
  · simp [undoH, List.concat_eq_append]

lemma redoH_undoH_iter (n : Nat) :
    ∀ t : List MetaButtonProps × MetaButtonProps × List MetaButtonProps,
      n ≤ t.1.length → redoH^[n] (undoH^[n] t) = t := by
  induction n with
  | zero => intro t _; simp
  | succ n ih =>
      intro t h
      have hne : t.1 ≠ [] := by
        intro he
        rw [he] at h
        simp at h
      have hlen : n ≤ (undoH t).1.length := by
        rw [undoH_fst t hne, List.length_dropLast]
        omega
      rw [show undoH^[n + 1] t = undoH^[n] (undoH t) from Function.iterate_succ_apply undoH n t]
      rw [Function.iterate_succ_apply' redoH n]
      rw [ih (undoH t) hlen, redoH_undoH t hne]

lemma histOf_undo_iter (n : Nat) (s : AppState) :
    histOf (handleUndo^[n] s) = undoH^[n] (histOf s) := by
  induction n with
  | zero => simp
  | succ n ih =>
      rw [Function.iterate_succ_apply', Function.iterate_succ_apply',
        histOf_handleUndo, ih]

lemma histOf_redo_iter (n : Nat) (s : AppState) :
    histOf (handleRedo^[n] s) = redoH^[n] (histOf s) := by
  induction n with
  | zero => simp
  | succ n ih =>
      rw [Function.iterate_succ_apply', Function.iterate_succ_apply',
        histOf_handleRedo, ih]

lemma runApplies_future (snaps : List MetaButtonProps) :
    ∀ s : AppState, s.future = [] → (runApplies snaps s).future = [] := by
  induction snaps with
  | nil => intro s h; simpa [runApplies] using h
  | cons p ps ih =>
      intro s _
      have : runApplies (p :: ps) s = runApplies ps (updateBtnProps p true s) := by
        simp [runApplies]
      rw [this]
      exact ih _ (by simp [updateBtnProps])

lemma runApplies_history_length (snaps : List MetaButtonProps) :
    ∀ s : AppState, (runApplies snaps s).history.length = s.history.length + snaps.length := by
  induction snaps with
  | nil => intro s; simp [runApplies]
  | cons p ps ih =>
      intro s
      have : runApplies (p :: ps) s = runApplies ps (updateBtnProps p true s) := by
        simp [runApplies]
      rw [this, ih]
      simp [updateBtnProps]
      omega

/-! ### Claim theorems -/

/-- C1: starting from the initial state, after any sequence of history-recorded
applies and any N at most the number of applies, N undos followed by N redos
restore the current snapshot that was current before the undos and leave the
future stack empty. -/
theorem C1_undo_redo_roundtrip (snaps : List MetaButtonProps) (N : Nat)
    (hN : N ≤ snaps.length) :
    (handleRedo^[N] (handleUndo^[N] (runApplies snaps initState))).btnProps
      = (runApplies snaps initState).btnProps ∧
    (handleRedo^[N] (handleUndo^[N] (runApplies snaps initState))).future = [] := by
  have hfut : (runApplies snaps initState).future = [] :=
    runApplies_future snaps initState (by simp [initState])
  have hlen : (runApplies snaps initState).history.length = snaps.length := by
    have h := runApplies_history_length snaps initState
    simpa [initState] using h
  have h1 : histOf (handleRedo^[N] (handleUndo^[N] (runApplies snaps initState)))
      = histOf (runApplies snaps initState) := by
    rw [histOf_redo_iter, histOf_undo_iter]
    exact redoH_undoH_iter N _ (by simpa [histOf, hlen] using hN)
  have h2 := congrArg (fun t => t.2.1) h1
  have h3 := congrArg (fun t => t.2.2) h1
  simp only [histOf] at h2 h3
  exact ⟨h2, by rw [h3, hfut]⟩

/-- Witness for C1 at a concrete input: one apply, one undo, one redo. -/
theorem C1_witness :
    (handleRedo^[1] (handleUndo^[1] (runApplies [{ defaultBtnProps with label := "X" }] initState))).btnProps
      = (runApplies [{ defaultBtnProps with label := "X" }] initState).btnProps ∧
    (handleRedo^[1] (handleUndo^[1] (runApplies [{ defaultBtnProps with label := "X" }] initState))).future = [] :=
  C1_undo_redo_roundtrip [{ defaultBtnProps with label := "X" }] 1 (by simp)

/-- C2: a history-recorded apply pushes the previous current snapshot onto the
past stack, clears the future stack, and installs the new snapshot; an
unrecorded apply installs the new snapshot and leaves both stacks unchanged. -/
theorem C2_apply_semantics :
    (∀ (s : AppState) (p : MetaButtonProps),
        (updateBtnProps p true s).btnProps = p ∧
        (updateBtnProps p true s).history = s.history ++ [s.btnProps] ∧
        (updateBtnProps p true s).future = []) ∧
    (∀ (s : AppState) (p : MetaButtonProps),
        (updateBtnProps p false s).btnProps = p ∧
        (updateBtnProps p false s).history = s.history ∧
        (updateBtnProps p false s).future = s.future) := by
  constructor <;> intro s p <;> simp [updateBtnProps]

/-- C6: undo on an empty past stack and redo on an empty future stack leave the
whole state (snapshot, both stacks, and the log) unchanged. -/
theorem C6_empty_noops :
    (∀ s : AppState, s.history = [] → handleUndo s = s) ∧
    (∀ s : AppState, s.future = [] → handleRedo s = s) := by
  constructor
  · intro s h
    unfold handleUndo
    rw [h]
    rfl
  · intro s h
    unfold handleRedo
    rw [h]

/-- Witness for C6 at the initial state, whose stacks are empty. -/
theorem C6_witness :
    initState.history = [] ∧ handleUndo initState = initState ∧
    initState.future = [] ∧ handleRedo initState = initState :=
  ⟨rfl, C6_empty_noops.1 initState rfl, rfl, C6_empty_noops.2 initState rfl⟩

/-- C7: a code-panel edit always stores the new text in the buffer; a parseable
edit is applied as a history-recorded new snapshot, while a failed parse leaves
the snapshot and both stacks (and everything else) untouched. -/
theorem C7_code_edit :
    (∀ (s : AppState) (text : String) (p : MetaButtonProps),
        handleCodeChange text (some p) s =
          { s with codeText := text, btnProps := p,
                   history := s.history ++ [s.btnProps], future := [] }) ∧
    (∀ (s : AppState) (text : String),
        handleCodeChange text none s = { s with codeText := text }) := by
  constructor <;> intros <;> rfl

/-! ### Window-manager verification -/

/-- The z-index invariant: the three windows' z-indices are pairwise distinct. -/
def distinctZ (w : Windows) : Prop :=
  w.control.zIndex ≠ w.code.zIndex ∧ w.control.zIndex ≠ w.console.zIndex ∧
    w.code.zIndex ≠ w.console.zIndex

lemma maxZ_eq_one_of (w : Windows) :
    maxZ w = w.control.zIndex ∨ maxZ w = w.code.zIndex ∨ maxZ w = w.console.zIndex := by
  simp only [maxZ]
  omega

lemma zIndex_le_maxZ (w : Windows) (id : WindowId) : (getWin w id).zIndex ≤ maxZ w := by
  cases id <;> simp only [getWin, maxZ] <;> omega

lemma distinctZ_winStep (op : WinOp) (w : Windows) (h : distinctZ w) :
    distinctZ (winStep op w) := by
  obtain ⟨h1, h2, h3⟩ := h
  unfold distinctZ at *
  cases op <;> rename_i id <;> cases id <;>
    simp only [winStep, toggleWindow, bringToFront, getWin, setWin, maxZ] <;>
    split <;> simp <;> omega

lemma distinctZ_runWinOps (ops : List WinOp) :
    ∀ w : Windows, distinctZ w → distinctZ (runWinOps ops w) := by
  induction ops with
  | nil => intro w h; simpa [runWinOps] using h
  | cons op rest ih =>
      intro w h
      have hrw : runWinOps (op :: rest) w = runWinOps rest (winStep op w) := by
        simp [runWinOps]
      rw [hrw]
      exact ih _ (distinctZ_winStep op w h)

lemma uniqueFront (w : Windows) (h : distinctZ w) :
    ∃! id : WindowId, (getWin w id).zIndex = maxZ w := by
  obtain ⟨h1, h2, h3⟩ := h
  rcases maxZ_eq_one_of w with hm | hm | hm
  · refine ⟨.control, hm.symm, ?_⟩
    intro y hy
    cases y with
    | control => rfl
    | code => exfalso; simp only [getWin] at hy; omega
    | console => exfalso; simp only [getWin] at hy; omega
  · refine ⟨.code, hm.symm, ?_⟩
    intro y hy
    cases y with
    | control => exfalso; simp only [getWin] at hy; omega
    | code => rfl
    | console => exfalso; simp only [getWin] at hy; omega
  · refine ⟨.console, hm.symm, ?_⟩
    intro y hy
    cases y with
    | control => exfalso; simp only [getWin] at hy; omega
    | code => exfalso; simp only [getWin] at hy; omega
    | console => rfl

/-- C3: along every sequence of toggle/bring-to-front calls from the initial
window map, the three z-indices stay pairwise distinct and exactly one window
holds the maximum; a toggle that opens a window assigns it `maxZ + 1`, and
bring-to-front assigns `maxZ + 1` exactly when the window is not already the
front one. -/
theorem C3_zorder_invariant :
    (∀ ops : List WinOp,
        distinctZ (runWinOps ops initWindows) ∧
        ∃! id : WindowId,
          (getWin (runWinOps ops initWindows) id).zIndex = maxZ (runWinOps ops initWindows)) ∧
    (∀ (w : Windows) (id : WindowId), (getWin w id).isOpen = false →
        (getWin (toggleWindow id w) id).zIndex = maxZ w + 1) ∧
    (∀ (w : Windows) (id : WindowId), (getWin w id).zIndex ≠ maxZ w →
        (getWin (bringToFront id w) id).zIndex = maxZ w + 1) ∧
    (∀ (w : Windows) (id : WindowId), (getWin w id).zIndex = maxZ w →
        bringToFront id w = w) := by
  refine ⟨?_, ?_, ?_, ?_⟩
  · intro ops
    have hd : distinctZ (runWinOps ops initWindows) :=
      distinctZ_runWinOps ops initWindows (by simp [initWindows, distinctZ])
    exact ⟨hd, uniqueFront _ hd⟩
  · intro w id h
    cases id <;> simp only [getWin] at h <;> simp [toggleWindow, getWin, setWin, h]
  · intro w id h
    cases id <;> simp only [getWin] at h ⊢ <;> simp [bringToFront, getWin, setWin, h]
  · intro w id h
    cases id <;> simp only [getWin] at h ⊢ <;> simp [bringToFront, getWin, setWin, h]

/-- Witness for C3 at concrete inputs: the invariant after opening the code
window, a toggle that opens the console window, and a bring-to-front on a
non-front and on the front window. -/
theorem C3_witness :
    (distinctZ (runWinOps [WinOp.toggle .code] initWindows) ∧
      ∃! id : WindowId,
        (getWin (runWinOps [WinOp.toggle .code] initWindows) id).zIndex
          = maxZ (runWinOps [WinOp.toggle .code] initWindows)) ∧
    ((getWin initWindows .console).isOpen = false ∧
      (getWin (toggleWindow .console initWindows) .console).zIndex = maxZ initWindows + 1) ∧
    ((getWin initWindows .control).zIndex ≠ maxZ initWindows ∧
      (getWin (bringToFront .control initWindows) .control).zIndex = maxZ initWindows + 1) ∧
    ((getWin initWindows .console).zIndex = maxZ initWindows ∧
      bringToFront .console initWindows = initWindows) :=
  ⟨C3_zorder_invariant.1 [WinOp.toggle .code],
    ⟨rfl, C3_zorder_invariant.2.1 initWindows .console rfl⟩,
    ⟨by decide, C3_zorder_invariant.2.2.1 initWindows .control (by decide)⟩,
    ⟨by decide, C3_zorder_invariant.2.2.2 initWindows .console (by decide)⟩⟩

/-! ### Overlay exclusivity -/

lemma overlays_step (e : Event) (s : AppState)
    (h : (s.showMeasurements && s.showTokens) = false) :
    ((step e s).showMeasurements && (step e s).showTokens) = false := by
  cases e with
  | propChange arg => cases arg <;> simpa [step, handlePropChange, updateBtnProps] using h
  | codeChange text parsed => cases parsed <;> simpa [step, handleCodeChange, updateBtnProps] using h
  | undo => cases hh : s.history.getLast? <;> simpa [step, handleUndo, hh] using h
  | redo => cases hh : s.future <;> simpa [step, handleRedo, hh] using h
  | copyCode => simpa [step, handleCopyCode] using h
  | toggleMeasurements => cases hm : s.showTokens <;> simp [step, handleToggleMeasurements, hm]
  | toggleTokens => cases hm : s.showMeasurements <;> simp [step, handleToggleTokens, hm]
  | stageClick => simpa [step, handleStageButtonClick] using h
  | winToggle id => simpa [step] using h
  | winFront id => simpa [step] using h

lemma overlays_runEvents (es : List Event) :
    ∀ s : AppState, (s.showMeasurements && s.showTokens) = false →
      ((runEvents es s).showMeasurements && (runEvents es s).showTokens) = false := by
  induction es with
  | nil => intro s h; simpa [runEvents] using h
  | cons e rest ih =>
      intro s h
      have hrw : runEvents (e :: rest) s = runEvents rest (step e s) := by
        simp [runEvents]
      rw [hrw]
      exact ih _ (overlays_step e s h)

/-- C8: the measurement and token overlays are never both on in any state
reachable from the initial one; enabling either overlay while the other is on
turns the other off, and enabling either while the other is off leaves it off. -/
theorem C8_overlay_exclusivity :
    (∀ es : List Event,
        ((runEvents es initState).showMeasurements
          && (runEvents es initState).showTokens) = false) ∧
    (∀ s : AppState, s.showMeasurements = false → s.showTokens = true →
        (handleToggleMeasurements s).showMeasurements = true ∧
        (handleToggleMeasurements s).showTokens = false) ∧
    (∀ s : AppState, s.showMeasurements = false → s.showTokens = false →
        (handleToggleMeasurements s).showMeasurements = true ∧
        (handleToggleMeasurements s).showTokens = false) ∧
    (∀ s : AppState, s.showTokens = false → s.showMeasurements = true →
        (handleToggleTokens s).showTokens = true ∧
        (handleToggleTokens s).showMeasurements = false) ∧
    (∀ s : AppState, s.showTokens = false → s.showMeasurements = false →
        (handleToggleTokens s).showTokens = true ∧
        (handleToggleTokens s).showMeasurements = false) := by
  refine ⟨?_, ?_, ?_, ?_, ?_⟩
  · intro es
    exact overlays_runEvents es initState (by simp [initState])
  · intro s hm ht
    simp [handleToggleMeasurements, hm, ht]
  · intro s hm ht
    simp [handleToggleMeasurements, hm, ht]
  · intro s ht hm
    simp [handleToggleTokens, hm, ht]
  · intro s ht hm
    simp [handleToggleTokens, hm, ht]

/-- Witness for C8: the reachability conjunct after toggling both overlays in a
row, and each toggle conjunct at a concrete state. -/
theorem C8_witness :
    (((runEvents [Event.toggleTokens, Event.toggleMeasurements] initState).showMeasurements
        && (runEvents [Event.toggleTokens, Event.toggleMeasurements] initState).showTokens) = false) ∧
    ({ initState with showTokens := true }.showMeasurements = false ∧
      { initState with showTokens := true }.showTokens = true ∧
      (handleToggleMeasurements { initState with showTokens := true }).showMeasurements = true ∧
      (handleToggleMeasurements { initState with showTokens := true }).showTokens = false) ∧
    (initState.showMeasurements = false ∧ initState.showTokens = false ∧
      (handleToggleTokens initState).showTokens = true ∧
      (handleToggleTokens initState).showMeasurements = false) :=
  ⟨C8_overlay_exclusivity.1 [Event.toggleTokens, Event.toggleMeasurements],
    ⟨rfl, rfl,
      (C8_overlay_exclusivity.2.1 { initState with showTokens := true } rfl rfl).1,
      (C8_overlay_exclusivity.2.1 { initState with showTokens := true } rfl rfl).2⟩,
    ⟨rfl, rfl,
      (C8_overlay_exclusivity.2.2.2.2 initState rfl rfl).1,
      (C8_overlay_exclusivity.2.2.2.2 initState rfl rfl).2⟩⟩

/-! ### Log sink verification -/

lemma lastFifty_length_le (l : List String) : (lastFifty l).length ≤ 50 := by
  simp only [lastFifty, List.length_drop]
  omega

lemma lastFifty_of_le (l : List String) (h : l.length ≤ 50) : lastFifty l = l := by
  have h0 : l.length - 50 = 0 := by omega
  simp [lastFifty, h0]

lemma lastFifty_append (a b : List String) :
    lastFifty (lastFifty a ++ b) = lastFifty (a ++ b) := by
  unfold lastFifty
  rw [← List.drop_append_of_le_length (show a.length - 50 ≤ a.length by omega),
    List.drop_drop]
  congr 1
  simp only [List.length_drop, List.length_append]
  omega

lemma logEvent_length_le (m : String) (l : List String) : (logEvent m l).length ≤ 50 :=
  lastFifty_length_le _

lemma foldl_logEvent (msgs : List String) :
    ∀ l : List String, l.length ≤ 50 →
      msgs.foldl (fun l m => logEvent m l) l = lastFifty (l ++ msgs) := by
  induction msgs with
  | nil =>
      intro l h
      simpa using (lastFifty_of_le l h).symm
  | cons m ms ih =>
      intro l h
      rw [List.foldl_cons, ih (logEvent m l) (logEvent_length_le m l)]
      show lastFifty (lastFifty (l ++ [m]) ++ ms) = lastFifty (l ++ m :: ms)
      rw [lastFifty_append]
      simp

/-- C9: the log never exceeds 50 entries; while under the cap, `record` appends
one entry at the end; and after 60 records from the empty log exactly the
messages of the most recent 50 calls remain, in order (the oldest 10 dropped). -/
theorem C9_log_capacity :
    (∀ (m : String) (logs : List String), (logEvent m logs).length ≤ 50) ∧
    (∀ (m : String) (logs : List String), logs.length < 50 → logEvent m logs = logs ++ [m]) ∧
    (∀ msgs : List String, msgs.length = 60 → recordAll msgs = msgs.drop 10) := by
  refine ⟨fun m logs => logEvent_length_le m logs, ?_, ?_⟩
  · intro m logs h
    exact lastFifty_of_le _ (by simp; omega)
  · intro msgs h
    rw [recordAll, foldl_logEvent msgs [] (by simp)]
    simp [lastFifty, h]

/-- Witness for C9: the cap, the plain append below the cap, and the exact
contents after 60 records, all at concrete inputs. -/
theorem C9_witness :
    ((logEvent "a" []).length ≤ 50) ∧
    (([] : List String).length < 50 ∧ logEvent "a" [] = [] ++ ["a"]) ∧
    ((List.replicate 60 "m").length = 60 ∧
      recordAll (List.replicate 60 "m") = (List.replicate 60 "m").drop 10) :=
  ⟨C9_log_capacity.1 "a" [],
    ⟨by simp, C9_log_capacity.2.1 "a" [] (by simp)⟩,
    ⟨by simp, C9_log_capacity.2.2 (List.replicate 60 "m") (by simp)⟩⟩

/-! ### Logging side effects (claim C5) -/

/-- C5 counterexample: a code-panel edit that parses successfully replaces the
current snapshot (label "X" instead of "SusButton") yet appends no log entry, so
not every successful apply appends one. -/
theorem C5_counterexample :
    (handleCodeChange "edited" (some { defaultBtnProps with label := "X" }) initState).btnProps
        ≠ initState.btnProps ∧
    (handleCodeChange "edited" (some { defaultBtnProps with label := "X" }) initState).logs
        = initState.logs := by
  constructor
  · simp [handleCodeChange, updateBtnProps, initState, defaultBtnProps]
  · rfl

/-- C5 as amended: an apply through `handlePropChange` appends exactly one log
entry, every successful undo and every successful redo appends exactly one log
entry, but an apply through a code-panel edit appends none. -/
theorem C5_logging :
    (∀ (s : AppState) (arg : PropChangeArg),
        ∃ m : String, (handlePropChange arg s).logs = logEvent m s.logs) ∧
    (∀ s : AppState, s.history ≠ [] →
        (handleUndo s).logs = logEvent "Undo performed" s.logs) ∧
    (∀ s : AppState, s.future ≠ [] →
        (handleRedo s).logs = logEvent "Redo performed" s.logs) ∧
    (∀ (s : AppState) (text : String) (parsed : Option MetaButtonProps),
        (handleCodeChange text parsed s).logs = s.logs) := by
  refine ⟨?_, ?_, ?_, ?_⟩
  · intro s arg
    cases arg with
    | key k v =>
        exact ⟨"Prop updated: " ++ keyName k ++ " = " ++ showValue v,
          by simp [handlePropChange, updateBtnProps]⟩
    | obj updates =>
        exact ⟨"State updated: " ++ String.intercalate ", " (updates.map fun kv => keyName kv.1),
          by simp [handlePropChange, updateBtnProps]⟩
  · intro s h
    rcases List.eq_nil_or_concat s.history with he | ⟨q, b, he⟩
    · exact absurd he h
    · simp [handleUndo, he, List.getLast?_concat]
  · intro s h
    cases hh : s.future with
    | nil => exact absurd hh h
    | cons next rest => simp [handleRedo, hh]
  · intro s text parsed
    cases parsed <;> simp [handleCodeChange, updateBtnProps]

/-- Witness for C5's amended statement: a successful undo and a successful redo
from concrete states with one stacked snapshot, and the code-edit path at a
concrete input. -/
theorem C5_witness :
    ({ initState with history := [defaultBtnProps] }.history ≠ [] ∧
      (handleUndo { initState with history := [defaultBtnProps] }).logs
        = logEvent "Undo performed" { initState with history := [defaultBtnProps] }.logs) ∧
    ({ initState with future := [defaultBtnProps] }.future ≠ [] ∧
      (handleRedo { initState with future := [defaultBtnProps] }).logs
        = logEvent "Redo performed" { initState with future := [defaultBtnProps] }.logs) :=
  ⟨⟨by simp, C5_logging.2.1 { initState with history := [defaultBtnProps] } (by simp)⟩,
    ⟨by simp, C5_logging.2.2.1 { initState with future := [defaultBtnProps] } (by simp)⟩⟩

/-! ### Token resolver verification -/

lemma resolveEntries_nil (bp : Breakpoint) : resolveEntries [] bp = [] := by
  rw [resolveEntries]

lemma resolveEntries_cons (bp : Breakpoint) (k : String) (v : Tok)
    (rest : List (String × Tok)) :
    resolveEntries ((k, v) :: rest) bp =
      (k,
        if isResponsiveObject v then pickResponsive v bp
        else
          match v with
          | .obj kvs2 => .obj (resolveEntries kvs2 bp)
          | .leaf s => .leaf s) :: resolveEntries rest bp := by
  rw [resolveEntries.eq_def]

lemma resolveTokens_obj (bp : Breakpoint) (kvs : List (String × Tok)) :
    resolveTokens (Tok.obj kvs) bp = Tok.obj (resolveEntries kvs bp) := by
  rw [resolveTokens]

lemma resolveEntries_keys (bp : Breakpoint) (kvs : List (String × Tok)) :
    (resolveEntries kvs bp).map Prod.fst = kvs.map Prod.fst := by
  induction kvs with
  | nil => simp [resolveEntries_nil]
  | cons kv rest ih =>
      obtain ⟨k, v⟩ := kv
      simp [resolveEntries_cons, ih]

/-- A responsive-node test fixture: a node carrying `mobile` and `desktop`
variants. -/
def innerResp : Tok :=
  Tok.obj [("mobile", Tok.leaf "x"), ("desktop", Tok.leaf "y")]

/-- C4: `resolveTokens` keeps every key, passes non-object leaves through,
recurses into non-responsive objects, and replaces each responsive node by the
requested breakpoint's value with the fixed fallback order desktop, then
tablet, then mobile; on `{mobile: a, desktop: b}` at `tablet` it yields `b`,
and on `{mobile: a, tablet: c, desktop: b}` at `tablet` it yields `c`. -/
theorem C4_resolve_breakpoint :
    (∀ (bp : Breakpoint) (kvs : List (String × Tok)),
        (resolveEntries kvs bp).map Prod.fst = kvs.map Prod.fst) ∧
    (∀ (bp : Breakpoint) (k s : String) (rest : List (String × Tok)),
        resolveEntries ((k, Tok.leaf s) :: rest) bp = (k, Tok.leaf s) :: resolveEntries rest bp) ∧
    (∀ (bp : Breakpoint) (k : String) (kvs rest : List (String × Tok)),
        isResponsiveObject (Tok.obj kvs) = false →
        resolveEntries ((k, Tok.obj kvs) :: rest) bp
          = (k, Tok.obj (resolveEntries kvs bp)) :: resolveEntries rest bp) ∧
    (∀ (bp : Breakpoint) (k : String) (kvs rest : List (String × Tok)) (w : Tok),
        isResponsiveObject (Tok.obj kvs) = true →
        lookupKey kvs bp.key = some w →
        resolveEntries ((k, Tok.obj kvs) :: rest) bp = (k, w) :: resolveEntries rest bp) ∧
    (∀ (bp : Breakpoint) (k : String) (kvs rest : List (String × Tok)) (w : Tok),
        isResponsiveObject (Tok.obj kvs) = true →
        lookupKey kvs bp.key = none →
        lookupKey kvs "desktop" = some w →
        resolveEntries ((k, Tok.obj kvs) :: rest) bp = (k, w) :: resolveEntries rest bp) ∧
    (∀ (bp : Breakpoint) (k : String) (kvs rest : List (String × Tok)) (w : Tok),
        isResponsiveObject (Tok.obj kvs) = true →
        lookupKey kvs bp.key = none →
        lookupKey kvs "desktop" = none →
        lookupKey kvs "tablet" = some w →
        resolveEntries ((k, Tok.obj kvs) :: rest) bp = (k, w) :: resolveEntries rest bp) ∧
    (∀ (bp : Breakpoint) (k : String) (kvs rest : List (String × Tok)) (w : Tok),
        isResponsiveObject (Tok.obj kvs) = true →
        lookupKey kvs bp.key = none →
        lookupKey kvs "desktop" = none →
        lookupKey kvs "tablet" = none →
        lookupKey kvs "mobile" = some w →
        resolveEntries ((k, Tok.obj kvs) :: rest) bp = (k, w) :: resolveEntries rest bp) ∧
    (resolveEntries [("k", Tok.obj [("mobile", Tok.leaf "a"), ("desktop", Tok.leaf "b")])] .tablet
        = [("k", Tok.leaf "b")]) ∧
    (resolveEntries
        [("k", Tok.obj [("mobile", Tok.leaf "a"), ("tablet", Tok.leaf "c"), ("desktop", Tok.leaf "b")])] .tablet
        = [("k", Tok.leaf "c")]) := by
  refine ⟨resolveEntries_keys, ?_, ?_, ?_, ?_, ?_, ?_, ?_, ?_⟩
  · intro bp k s rest
    simp [resolveEntries_cons, isResponsiveObject]
  · intro bp k kvs rest h
    simp [resolveEntries_cons, h]
  · intro bp k kvs rest w h hb
    simp [resolveEntries_cons, h, pickResponsive, hb, Option.or]
  · intro bp k kvs rest w h hb hd
    simp [resolveEntries_cons, h, pickResponsive, hb, hd, Option.or]
  · intro bp k kvs rest w h hb hd ht
    simp [resolveEntries_cons, h, pickResponsive, hb, hd, ht, Option.or]
  · intro bp k kvs rest w h hb hd ht hm
    simp [resolveEntries_cons, h, pickResponsive, hb, hd, ht, hm, Option.or]
  · simp [resolveEntries_cons, resolveEntries_nil, isResponsiveObject, lookupKey,
      pickResponsive, Breakpoint.key, Option.or]
  · simp [resolveEntries_cons, resolveEntries_nil, isResponsiveObject, lookupKey,
      pickResponsive, Breakpoint.key, Option.or]

/-- Witness for C4: the hypothesis-bearing conjuncts instantiated at concrete
responsive and non-responsive nodes. -/
theorem C4_witness :
    (isResponsiveObject (Tok.obj [("x", Tok.leaf "1")]) = false ∧
      resolveEntries [("k", Tok.obj [("x", Tok.leaf "1")])] .mobile
        = [("k", Tok.obj (resolveEntries [("x", Tok.leaf "1")] .mobile))]) ∧
    (isResponsiveObject (Tok.obj [("tablet", Tok.leaf "c")]) = true ∧
      lookupKey [("tablet", Tok.leaf "c")] Breakpoint.tablet.key = some (Tok.leaf "c") ∧
      resolveEntries [("k", Tok.obj [("tablet", Tok.leaf "c")])] .tablet
        = [("k", Tok.leaf "c")]) ∧
    (isResponsiveObject (Tok.obj [("mobile", Tok.leaf "a"), ("desktop", Tok.leaf "b")]) = true ∧
      lookupKey [("mobile", Tok.leaf "a"), ("desktop", Tok.leaf "b")] Breakpoint.tablet.key = none ∧
      lookupKey [("mobile", Tok.leaf "a"), ("desktop", Tok.leaf "b")] "desktop" = some (Tok.leaf "b") ∧
      resolveEntries [("k", Tok.obj [("mobile", Tok.leaf "a"), ("desktop", Tok.leaf "b")])] .tablet
        = [("k", Tok.leaf "b")]) ∧
    (isResponsiveObject (Tok.obj [("mobile", Tok.leaf "a"), ("tablet", Tok.leaf "c")]) = true ∧
      lookupKey [("mobile", Tok.leaf "a"), ("tablet", Tok.leaf "c")] Breakpoint.desktop.key = none ∧
      lookupKey [("mobile", Tok.leaf "a"), ("tablet", Tok.leaf "c")] "desktop" = none ∧
      lookupKey [("mobile", Tok.leaf "a"), ("tablet", Tok.leaf "c")] "tablet" = some (Tok.leaf "c") ∧
      resolveEntries [("k", Tok.obj [("mobile", Tok.leaf "a"), ("tablet", Tok.leaf "c")])] .desktop
        = [("k", Tok.leaf "c")]) ∧
    (isResponsiveObject (Tok.obj [("mobile", Tok.leaf "a")]) = true ∧
      lookupKey [("mobile", Tok.leaf "a")] Breakpoint.desktop.key = none ∧
      lookupKey [("mobile", Tok.leaf "a")] "desktop" = none ∧
      lookupKey [("mobile", Tok.leaf "a")] "tablet" = none ∧
      lookupKey [("mobile", Tok.leaf "a")] "mobile" = some (Tok.leaf "a") ∧
      resolveEntries [("k", Tok.obj [("mobile", Tok.leaf "a")])] .desktop
        = [("k", Tok.leaf "a")]) := by
  refine ⟨⟨by simp [isResponsiveObject, lookupKey], ?_⟩,
    ⟨by simp [isResponsiveObject, lookupKey], by simp [lookupKey, Breakpoint.key], ?_⟩,
    ⟨by simp [isResponsiveObject, lookupKey], by simp [lookupKey, Breakpoint.key],
      by simp [lookupKey], ?_⟩,
    ⟨by simp [isResponsiveObject, lookupKey], by simp [lookupKey, Breakpoint.key],
      by simp [lookupKey], by simp [lookupKey], ?_⟩,
    ⟨by simp [isResponsiveObject, lookupKey], by simp [lookupKey, Breakpoint.key],
      by simp [lookupKey], by simp [lookupKey], by simp [lookupKey], ?_⟩⟩
  · simpa [resolveEntries_nil] using
      C4_resolve_breakpoint.2.2.1 .mobile "k" [("x", Tok.leaf "1")] []
        (by simp [isResponsiveObject, lookupKey])
  · simpa [resolveEntries_nil] using
      C4_resolve_breakpoint.2.2.2.1 .tablet "k" [("tablet", Tok.leaf "c")] [] (Tok.leaf "c")
        (by simp [isResponsiveObject, lookupKey]) (by simp [lookupKey, Breakpoint.key])
  · simpa [resolveEntries_nil] using
      C4_resolve_breakpoint.2.2.2.2.1 .tablet "k"
        [("mobile", Tok.leaf "a"), ("desktop", Tok.leaf "b")] [] (Tok.leaf "b")
        (by simp [isResponsiveObject, lookupKey]) (by simp [lookupKey, Breakpoint.key])
        (by simp [lookupKey])
  · simpa [resolveEntries_nil] using
      C4_resolve_breakpoint.2.2.2.2.2.1 .desktop "k"
        [("mobile", Tok.leaf "a"), ("tablet", Tok.leaf "c")] [] (Tok.leaf "c")
        (by simp [isResponsiveObject, lookupKey]) (by simp [lookupKey, Breakpoint.key])
        (by simp [lookupKey]) (by simp [lookupKey])
  · simpa [resolveEntries_nil] using
      C4_resolve_breakpoint.2.2.2.2.2.2.1 .desktop "k" [("mobile", Tok.leaf "a")] [] (Tok.leaf "a")
        (by simp [isResponsiveObject, lookupKey]) (by simp [lookupKey, Breakpoint.key])
        (by simp [lookupKey]) (by simp [lookupKey]) (by simp [lookupKey])

/-- C10: a responsive node's selected branch is returned as stored, without
recursing into it: a responsive sub-node inside the selected branch reaches the
output unresolved, whereas the same sub-node inside a non-responsive mapping is
resolved. -/
theorem C10_selected_branch_not_recursed :
    (∀ (bp : Breakpoint) (k : String) (kvs rest : List (String × Tok)),
        isResponsiveObject (Tok.obj kvs) = true →
        resolveEntries ((k, Tok.obj kvs) :: rest) bp
          = (k, pickResponsive (Tok.obj kvs) bp) :: resolveEntries rest bp) ∧
    (resolveTokens (Tok.obj [("k", Tok.obj [("desktop", Tok.obj [("inner", innerResp)])])]) .desktop
        = Tok.obj [("k", Tok.obj [("inner", innerResp)])]) ∧
    (isResponsiveObject innerResp = true) ∧
    (resolveTokens (Tok.obj [("k", Tok.obj [("w", innerResp)])]) .desktop
        = Tok.obj [("k", Tok.obj [("w", Tok.leaf "y")])]) := by
  refine ⟨?_, ?_, ?_, ?_⟩
  · intro bp k kvs rest h
    simp [resolveEntries_cons, h]
  · simp [resolveTokens_obj, resolveEntries_cons, resolveEntries_nil, innerResp,
      isResponsiveObject, lookupKey, pickResponsive, Breakpoint.key, Option.or]
  · simp [innerResp, isResponsiveObject, lookupKey]
  · simp [resolveTokens_obj, resolveEntries_cons, resolveEntries_nil, innerResp,
      isResponsiveObject, lookupKey, pickResponsive, Breakpoint.key, Option.or]

/-- Witness for C10's general conjunct at a concrete responsive node. -/
theorem C10_witness :
    isResponsiveObject (Tok.obj [("desktop", Tok.leaf "y")]) = true ∧
    resolveEntries [("k", Tok.obj [("desktop", Tok.leaf "y")])] .desktop
      = [("k", pickResponsive (Tok.obj [("desktop", Tok.leaf "y")]) .desktop)] :=
  ⟨by simp [isResponsiveObject, lookupKey],
    by simpa [resolveEntries_nil] using
      C10_selected_branch_not_recursed.1 .desktop "k" [("desktop", Tok.leaf "y")] []
        (by simp [isResponsiveObject, lookupKey])⟩
